import Mathlib

/-!
Shallow embedding of the `gres` PostgreSQL client library, covering the
backend-message decoder and framer (`gres-protocol/src/messages/server.rs`),
the frontend-message encoder (`src/message.rs`), and the connection layer
(`src/connection.rs`).

Bytes are modelled as `Nat` (values `< 256` on real inputs); byte buffers and
Rust `&str`/`String` values are `List Nat` of their bytes.  A Rust function
that can panic is modelled with result type `Option (Except PErr α)`:
`none` models a panic (or divergence), `some (.error e)` an `Err(e)`, and
`some (.ok a)` an `Ok(a)`.  The `String` payloads of `ProtocolError::Error`
and `PgError::Error` (human-readable `format!` text) are not modelled; only
the variant is kept.
-/

namespace Gres

/-- Errors of `gres_protocol::ProtocolError` (payloads dropped). -/
inductive PErr
  | Utf8
  | ParseInt
  | Error
  | Other
deriving DecidableEq, Repr

/-- Big-endian value of a byte list (for 4-byte lists this is
`u32::from_be_bytes`, for 2-byte lists `u16::from_be_bytes`). -/
def beNat (l : List Nat) : Nat := l.foldl (fun acc b => acc * 256 + b) 0

/-- Big-endian 4-byte encoding of `n % 2^32` (`u32::to_be_bytes`). -/
def natToBe32 (n : Nat) : List Nat :=
  [n / 2 ^ 24 % 256, n / 2 ^ 16 % 256, n / 2 ^ 8 % 256, n % 256]

/-- Big-endian 2-byte encoding of `n % 2^16` (`u16::to_be_bytes`). -/
def natToBe16 (n : Nat) : List Nat := [n / 256 % 256, n % 256]

theorem beNat_natToBe32 (n : Nat) (h : n < 2 ^ 32) : beNat (natToBe32 n) = n := by
  simp only [beNat, natToBe32, List.foldl]
  omega

theorem beNat_natToBe16 (n : Nat) (h : n < 2 ^ 16) : beNat (natToBe16 n) = n := by
  simp only [beNat, natToBe16, List.foldl]
  omega

/-- Whether a byte is a UTF-8 continuation byte (`0x80..=0xBF`). -/
def utf8Cont (b : Nat) : Bool := 128 ≤ b && b ≤ 191

mutual

/-- UTF-8 validity of a byte sequence, as checked by Rust `str::from_utf8`:
lead-byte ranges per RFC 3629, with the lower bound of the first
continuation byte tightened for `E0`/`ED`/`F0`/`F4`. -/
def utf8Valid : List Nat → Bool
  | [] => true
  | b :: rest =>
    if b ≤ 127 then utf8Valid rest
    else if 194 ≤ b && b ≤ 223 then utf8Tail1 128 191 rest
    else if b = 224 then utf8Tail2 160 191 rest
    else if 225 ≤ b && b ≤ 236 then utf8Tail2 128 191 rest
    else if b = 237 then utf8Tail2 128 159 rest
    else if 238 ≤ b && b ≤ 239 then utf8Tail2 128 191 rest
    else if b = 240 then utf8Tail3 144 191 rest
    else if 241 ≤ b && b ≤ 243 then utf8Tail3 128 191 rest
    else if b = 244 then utf8Tail3 128 143 rest
    else false

/-- One continuation byte in the range `lo..=hi`, then a valid tail. -/
def utf8Tail1 (lo hi : Nat) : List Nat → Bool
  | c :: r => (lo ≤ c && c ≤ hi) && utf8Valid r
  | [] => false

/-- One continuation byte in `lo..=hi`, then one plain continuation byte,
then a valid tail. -/
def utf8Tail2 (lo hi : Nat) : List Nat → Bool
  | c :: r => (lo ≤ c && c ≤ hi) && utf8Tail1 128 191 r
  | [] => false

/-- One continuation byte in `lo..=hi`, then two plain continuation bytes,
then a valid tail. -/
def utf8Tail3 (lo hi : Nat) : List Nat → Bool
  | c :: r => (lo ≤ c && c ≤ hi) && utf8Tail2 128 191 r
  | [] => false

end

theorem utf8Valid_of_ascii : ∀ {l : List Nat}, (∀ b ∈ l, b ≤ 127) → utf8Valid l = true := by
  intro l
  induction l with
  | nil => intro _; rfl
  | cons b rest ih =>
    intro h
    have hb : b ≤ 127 := h b (List.mem_cons_self _ _)
    have hrest := ih fun x hx => h x (List.mem_cons_of_mem _ hx)
    unfold utf8Valid
    rw [if_pos hb]
    exact hrest

/-- Mirrors `erg::find_first` (`iter().position`) specialised to bytes. -/
def find_first : List Nat → Nat → Option Nat
  | [], _ => none
  | b :: rest, m => if b = m then some 0 else (find_first rest m).map (· + 1)

/-- Mirrors `erg::slice_to_u32`: `try_into().expect(..)` panics (`none`)
unless the slice has exactly four bytes. -/
def slice_to_u32 (input : List Nat) : Option Nat :=
  if input.length = 4 then some (beNat input) else none

/-- Mirrors `erg::slice_to_u16`: panics (`none`) unless exactly two bytes. -/
def slice_to_u16 (input : List Nat) : Option Nat :=
  if input.length = 2 then some (beNat input) else none

/-- Mirrors `erg::take_cstring_plus_fixed`: find the first NUL, check the
prefix is UTF-8 (`?` on `from_utf8`), then slice out `fixed` bytes after the
NUL.  The slice `&input[strlen+1..strlen+1+fixed]` panics (`none`) when it
runs past the end. -/
def take_cstring_plus_fixed (input : List Nat) (fixed : Nat) :
    Option (Except PErr (List Nat × List Nat × List Nat)) :=
  match find_first input 0 with
  | some strlen =>
    if utf8Valid (input.take strlen) then
      if strlen + 1 + fixed ≤ input.length then
        some (.ok (input.take strlen, (input.drop (strlen + 1)).take fixed,
          input.drop (strlen + 1 + fixed)))
      else none
    else some (.error .Utf8)
  | none => some (.error .Error)

/-- Mirrors `erg::take_sized_string`: a `u32` big-endian size then that many
bytes, which must be UTF-8.  Either slice panics (`none`) when out of range. -/
def take_sized_string (input : List Nat) :
    Option (Except PErr (List Nat × List Nat)) :=
  if input.length < 4 then none
  else
    let size := beNat (input.take 4)
    if 4 + size ≤ input.length then
      if utf8Valid ((input.drop 4).take size) then
        some (.ok ((input.drop 4).take size, input.drop (4 + size)))
      else some (.error .Utf8)
    else none

theorem take_cstring_plus_fixed_ok_length {input : List Nat} {fixed : Nat}
    {s f e : List Nat}
    (h : take_cstring_plus_fixed input fixed = some (.ok (s, f, e))) :
    e.length + 1 + fixed ≤ input.length := by
  unfold take_cstring_plus_fixed at h
  split at h
  case h_2 => exact absurd h (by simp)
  case h_1 strlen hfind =>
    split at h
    case isFalse => exact absurd h (by simp)
    case isTrue =>
      split at h
      case isFalse => exact absurd h (by simp)
      case isTrue hle =>
        have he : e = input.drop (strlen + 1 + fixed) := by
          have := h
          simp only [Option.some.injEq, Except.ok.injEq, Prod.mk.injEq] at this
          exact this.2.2.symm
        subst he
        simp only [List.length_drop]
        omega

/-- Field format of `FieldFormat` in `server.rs`. -/
inductive FieldFormat
  | Text
  | Binary
deriving DecidableEq, Repr

/-- Mirrors `FieldDescription` (only the fields the source keeps). -/
structure FieldDescription where
  field_name : List Nat
  format : FieldFormat
deriving DecidableEq, Repr

/-- Mirrors `Severity`. -/
inductive Severity
  | Error
  | Fatal
  | Panic
  | Warning
  | Notice
  | Debug
  | Info
  | Log
deriving DecidableEq, Repr

/-- Mirrors `Severity::new`, comparing against the ASCII spellings. -/
def Severity.new (s : List Nat) : Option Severity :=
  if s = [69, 82, 82, 79, 82] then some .Error
  else if s = [70, 65, 84, 65, 76] then some .Fatal
  else if s = [80, 65, 78, 73, 67] then some .Panic
  else if s = [87, 65, 82, 78, 73, 78, 71] then some .Warning
  else if s = [78, 79, 84, 73, 67, 69] then some .Notice
  else if s = [68, 69, 66, 85, 71] then some .Debug
  else if s = [73, 78, 70, 79] then some .Info
  else if s = [76, 79, 71] then some .Log
  else none

/-- Mirrors `Position`. -/
inductive Position
  | Public (pos : Nat)
  | Internal (position : Nat) (query : List Nat)
deriving DecidableEq, Repr

/-- Mirrors `NoticeBody` (tag values as byte strings). -/
structure NoticeBody where
  severity_loc : List Nat
  severity : Option Severity
  code : List Nat
  message : List Nat
  detail : Option (List Nat)
  hint : Option (List Nat)
  position : Option Position
  more : List (Nat × List Nat)
deriving DecidableEq, Repr

/-- Mirrors `AuthMsg`. -/
inductive AuthMsg
  | Ok
  | Kerberos
  | Cleartext
  | Md5 (salt : List Nat)
  | ScmCredential
  | Gss
  | Sspi
  | GssContinue (data : List Nat)
  | Unknown
deriving DecidableEq, Repr

/-- Mirrors `ServerMsg`. -/
inductive ServerMsg
  | ErrorResponse (body : NoticeBody)
  | NoticeResponse (body : NoticeBody)
  | Auth (msg : AuthMsg)
  | ReadyForQuery
  | CommandComplete (tag : List Nat)
  | ParamStatus (name value : List Nat)
  | BackendKeyData (pid key : Nat)
  | RowDescription (fields : List FieldDescription)
  | DataRow (columns : List (List Nat))
  | Unknown (id : Nat) (body : List Nat)
  | ParseComplete
  | BindComplete
  | CloseComplete
deriving DecidableEq, Repr

/-- Mirrors `AuthMsg::from_slice`.  The slices `&extra[0..4]` and
`&extra[4..8]` panic (`none`) when `extra` is too short; an authentication
code above 255 is `Err(ProtocolError::Other)`. -/
def AuthMsg.from_slice (extra : List Nat) : Option (Except PErr AuthMsg) :=
  if extra.length < 4 then none
  else
    let code := beNat (extra.take 4)
    if code = 0 then some (.ok .Ok)
    else if code = 2 then some (.ok .Kerberos)
    else if code = 3 then some (.ok .Cleartext)
    else if code = 5 then
      if 8 ≤ extra.length then some (.ok (.Md5 ((extra.drop 4).take 4))) else none
    else if code = 6 then some (.ok .ScmCredential)
    else if code = 7 then some (.ok .Gss)
    else if code = 8 then
      if 8 ≤ extra.length then some (.ok (.GssContinue ((extra.drop 4).take 4))) else none
    else if code = 9 then some (.ok .Sspi)
    else if code = 1 || code = 4 || (10 ≤ code && code ≤ 255) then some (.ok .Unknown)
    else some (.error .Other)

/-- Mirrors `take_msg`: needs 5 bytes for the header and
`1 + u32(length field)` bytes for the whole frame, else `Err`; otherwise
splits at the frame boundary. -/
def take_msg (input : List Nat) : Except PErr (List Nat × List Nat) :=
  if input.length < 5 then .error .Error
  else
    let length := 1 + beNat ((input.drop 1).take 4)
    if input.length < length then .error .Error
    else .ok (input.take length, input.drop length)

/-- Tags recognised by `NoticeBody::from_bytes`:
`S V C M D H P p q` as bytes. -/
def noticeKnownTags : List Nat := [83, 86, 67, 77, 68, 72, 80, 112, 113]

/-- Insert into the `HashMap<char, &str>` modelled as a lookup function
(last write wins). -/
def insertPart (parts : Nat → Option (List Nat)) (k : Nat) (v : List Nat) :
    Nat → Option (List Nat) :=
  fun c => if c = k then some v else parts c

/-- The field-consuming loop of `NoticeBody::from_bytes`.  At each step the
tag byte is read (`bytes[0]` panics on an empty list), the NUL-terminated
value is taken with `take_cstring_plus_fixed(..).unwrap()` (panicking on
`Err`), known tags go to the map and unknown ones to `more`; an empty
remainder before a zero tag is `Err`. -/
def parseNoticeFields (bytes : List Nat) (parts : Nat → Option (List Nat))
    (more : List (Nat × List Nat)) :
    Option (Except PErr ((Nat → Option (List Nat)) × List (Nat × List Nat))) :=
  match bytes with
  | [] => none
  | b :: rest =>
    if b = 0 then some (.ok (parts, more))
    else
      match h : take_cstring_plus_fixed rest 0 with
      | none => none
      | some (.error _) => none
      | some (.ok (msg, _, endb)) =>
        let pm : (Nat → Option (List Nat)) × List (Nat × List Nat) :=
          if b ∈ noticeKnownTags then (insertPart parts b msg, more)
          else (parts, more ++ [(b, msg)])
        if endb.isEmpty then some (.error .Error)
        else parseNoticeFields endb pm.1 pm.2
termination_by bytes.length
decreasing_by
  have := take_cstring_plus_fixed_ok_length h
  simp only [List.length_cons]
  omega

/-- Rust `usize::from_str` on the bytes of a decimal string: an optional
leading `+`, then one or more ASCII digits, value below `2^64`
(64-bit `usize`); anything else is `Err`. -/
def parseUsize (s : List Nat) : Option Nat :=
  let digits := match s with
    | 43 :: rest => rest
    | other => other
  if digits.isEmpty then none
  else if digits.all (fun b => 48 ≤ b && b ≤ 57) then
    let v := digits.foldl (fun acc b => acc * 10 + (b - 48)) 0
    if v < 2 ^ 64 then some v else none
  else none

/-- The final section of `NoticeBody::from_bytes` after the field loop:
decode the position (`?` on `parse`), then build the struct, where the
direct map indexings `parts[&'S']`, `parts[&'C']`, `parts[&'M']` panic
(`none`) when the key is absent. -/
def noticeFinish (parts : Nat → Option (List Nat)) (more : List (Nat × List Nat)) :
    Option (Except PErr NoticeBody) :=
  let posRes : Except PErr (Option Position) :=
    match parts 80 with
    | some pos =>
      match parseUsize pos with
      | some n => .ok (some (.Public n))
      | none => .error .ParseInt
    | none =>
      match parts 112 with
      | some pos =>
        match parseUsize pos with
        | some n => .ok (some (.Internal n ((parts 113).getD [])))
        | none => .error .ParseInt
      | none => .ok none
  match posRes with
  | .error e => some (.error e)
  | .ok position =>
    match parts 83, parts 67, parts 77 with
    | some sloc, some code, some msg =>
      some (.ok { severity_loc := sloc, severity := (parts 86).bind Severity.new,
                  code := code, message := msg, detail := parts 68,
                  hint := parts 72, position := position, more := more })
    | _, _, _ => none

/-- Mirrors `NoticeBody::from_bytes`. -/
def NoticeBody.from_bytes (bytes : List Nat) : Option (Except PErr NoticeBody) :=
  if bytes.isEmpty then some (.error .Error)
  else
    match parseNoticeFields bytes (fun _ => none) [] with
    | none => none
    | some (.error e) => some (.error e)
    | some (.ok (parts, more)) => noticeFinish parts more

/-- The `"S"` (parameter status) branch of `ServerMsg::from_slice`:
split the body on NUL bytes; the first segment always exists, the second
and third are obtained with `.unwrap()` (panicking when missing); the third
must be empty. -/
def paramStatus (extra : List Nat) : Option (Except PErr ServerMsg) :=
  let segs := extra.splitOn 0
  let name := segs.headD []
  if ¬ utf8Valid name then some (.error .Utf8)
  else
    match segs.get? 1 with
    | none => none
    | some value =>
      if ¬ utf8Valid value then some (.error .Utf8)
      else
        match segs.get? 2 with
        | none => none
        | some nothing =>
          if nothing.isEmpty then some (.ok (.ParamStatus name value))
          else some (.error .Error)

/-- The `"T"` (row description) loop of `ServerMsg::from_slice`:
`field_count` iterations of `FieldDescription::take_field(..).unwrap()`
(18 fixed bytes after the name) and `FieldDescription::new(..).unwrap()`
(format word must be 0 or 1); then the body must be exhausted. -/
def rowDescLoop : Nat → List Nat → List FieldDescription →
    Option (Except PErr ServerMsg)
  | 0, extra, fields =>
    if extra.isEmpty then some (.ok (.RowDescription fields))
    else some (.error .Error)
  | n + 1, extra, fields =>
    match take_cstring_plus_fixed extra 18 with
    | none => none
    | some (.error _) => none
    | some (.ok (name, fixed_data, rem)) =>
      let fmtWord := beNat ((fixed_data.drop 16).take 2)
      if fmtWord = 0 then
        rowDescLoop n rem (fields ++ [{ field_name := name, format := .Text }])
      else if fmtWord = 1 then
        rowDescLoop n rem (fields ++ [{ field_name := name, format := .Binary }])
      else none

/-- The `"D"` (data row) loop of `ServerMsg::from_slice`:
`field_count` iterations of `take_sized_string(..).unwrap()` (panicking on
any `Err`); then the body must be exhausted. -/
def dataRowLoop : Nat → List Nat → List (List Nat) →
    Option (Except PErr ServerMsg)
  | 0, extra, fields =>
    if extra.isEmpty then some (.ok (.DataRow fields))
    else some (.error .Error)
  | n + 1, extra, fields =>
    match take_sized_string extra with
    | none => none
    | some (.error _) => none
    | some (.ok (s, more)) => dataRowLoop n more (fields ++ [s])

/-- The identifier dispatch of `ServerMsg::from_slice` (the `match` over
the one-character identifier string), acting on the body `extra`. -/
def from_slice_dispatch (idb : Nat) (extra : List Nat) :
    Option (Except PErr ServerMsg) :=
  if idb = 73 then
          if extra.isEmpty then some (.ok .ParseComplete) else some (.error .Error)
        else if idb = 82 then
          (AuthMsg.from_slice extra).map (Except.map ServerMsg.Auth)
        else if idb = 83 then paramStatus extra
        else if idb = 75 then
          if extra.length < 4 then none
          else
            match slice_to_u32 (extra.take 4), slice_to_u32 (extra.drop 4) with
            | some pid, some key => some (.ok (.BackendKeyData pid key))
            | _, _ => none
        else if idb = 84 then
          if extra.length < 2 then none
          else rowDescLoop (beNat (extra.take 2)) (extra.drop 2) []
        else if idb = 68 then
          if extra.length < 2 then none
          else dataRowLoop (beNat (extra.take 2)) (extra.drop 2) []
        else if idb = 67 then
          match take_cstring_plus_fixed extra 0 with
          | none => none
          | some (.error _) => none
          | some (.ok (command_tag, _, rest)) =>
            if rest.isEmpty then some (.ok (.CommandComplete command_tag))
            else some (.error .Error)
        else if idb = 90 then some (.ok .ReadyForQuery)
        else if idb = 78 then
          match NoticeBody.from_bytes extra with
          | none => none
          | some (.error e) => some (.error e)
          | some (.ok body) => some (.ok (.NoticeResponse body))
        else if idb = 69 then
          match NoticeBody.from_bytes extra with
          | none => none
          | some (.error e) => some (.error e)
          | some (.ok body) => some (.ok (.ErrorResponse body))
        else if idb = 49 then
          if extra.isEmpty then some (.ok .ParseComplete) else some (.error .Error)
        else if idb = 50 then
          if extra.isEmpty then some (.ok .BindComplete) else some (.error .Error)
        else if idb = 51 then
          if extra.isEmpty then some (.ok .CloseComplete) else some (.error .Error)
        else some (.ok (.Unknown idb extra))

/-- Mirrors `ServerMsg::from_slice`.  The slice `&message[1..5]` panics
(`none`) below 5 bytes; the total length must equal `1 +` the value of the
length field; the identifier byte must be one-byte UTF-8 (ASCII, below
128), else `Err(Utf8)`; then dispatch on the identifier with the body
`message[5..]`. -/
def ServerMsg.from_slice (message : List Nat) : Option (Except PErr ServerMsg) :=
  if message.length < 5 then none
  else
    let length := 1 + beNat ((message.drop 1).take 4)
    if message.length ≠ length then some (.error .Error)
    else
      let idb := message.headD 0
      if 128 ≤ idb then some (.error .Utf8)
      else from_slice_dispatch idb (message.drop 5)

/-- Mirrors `message::Format` (`repr(u16)`). -/
inductive MsgFormat
  | Text
  | Binary
deriving DecidableEq, Repr

/-- The `u16` value of a `Format` code. -/
def MsgFormat.toNat : MsgFormat → Nat
  | .Text => 0
  | .Binary => 1

/-- Mirrors `message::CloseType` (`repr(u8)`; `b'S'` / `b'P'`). -/
inductive CloseType
  | PreparedStatement
  | Portal
deriving DecidableEq, Repr

/-- The `u8` value of a `CloseType`. -/
def CloseType.toNat : CloseType → Nat
  | .PreparedStatement => 83
  | .Portal => 80

/-- The frontend message structs of `src/message.rs`, gathered into one
inductive; each variant keeps the struct's fields. -/
inductive FrontendMsg
  | StartupMessage (user : List Nat) (database : Option (List Nat))
      (params : List (List Nat × List Nat))
  | PasswordMessage (hash : List Nat)
  | Terminate
  | Query (query : List Nat)
  | ParseMessage (name sql : List Nat) (param_types : List Int)
  | BindMessage (portal prepared_statement : List Nat)
      (param_format_codes : List MsgFormat) (param_values : List (List Nat))
      (result_format_codes : List MsgFormat)
  | ExecuteMessage (portal : List Nat) (max_rows : Nat)
  | SyncMessage
  | CloseMessage (close_type : CloseType) (name : List Nat)
deriving DecidableEq, Repr

/-- Mirrors `write_string`: the bytes followed by a NUL. -/
def write_string (s : List Nat) : List Nat := s ++ [0]

/-- The `Message::id` implementations. -/
def FrontendMsg.id : FrontendMsg → Option Nat
  | .StartupMessage _ _ _ => none
  | .PasswordMessage _ => some 112
  | .Terminate => some 88
  | .Query _ => some 81
  | .ParseMessage _ _ _ => some 80
  | .BindMessage _ _ _ _ _ => some 66
  | .ExecuteMessage _ _ => some 69
  | .SyncMessage => some 83
  | .CloseMessage _ _ => some 67

/-- The `Message::write_body` implementations (the default empty body for
`Terminate` and `SyncMessage`).  `as u16` casts wrap modulo `2^16`;
`i32::to_be_bytes` is two's complement. -/
def FrontendMsg.get_body : FrontendMsg → List Nat
  | .StartupMessage user database params =>
    [0, 3, 0, 0] ++ write_string [117, 115, 101, 114] ++ write_string user ++
      (match database with
       | some db => write_string [100, 97, 116, 97, 98, 97, 115, 101] ++ write_string db
       | none => []) ++
      (params.flatMap fun p => write_string p.1 ++ write_string p.2) ++ [0]
  | .PasswordMessage hash => write_string hash
  | .Terminate => []
  | .Query query => write_string query
  | .ParseMessage name sql param_types =>
    write_string name ++ write_string sql ++ natToBe16 param_types.length ++
      (param_types.flatMap fun t => natToBe32 (t.emod (2 ^ 32)).toNat)
  | .BindMessage portal prepared_statement param_format_codes param_values
      result_format_codes =>
    write_string portal ++ write_string prepared_statement ++
      natToBe16 param_format_codes.length ++
      (param_format_codes.flatMap fun c => natToBe16 c.toNat) ++
      natToBe16 param_values.length ++
      (param_values.flatMap fun v => natToBe32 v.length ++ v) ++
      natToBe16 result_format_codes.length ++
      (result_format_codes.flatMap fun c => natToBe16 c.toNat)
  | .ExecuteMessage portal max_rows => write_string portal ++ natToBe32 max_rows
  | .SyncMessage => []
  | .CloseMessage close_type name => close_type.toNat :: write_string name

/-- Mirrors `Message::to_bytes`: optional identifier byte, `u32` big-endian
length prefix of `body.len() + 4`, then the body. -/
def FrontendMsg.to_bytes (m : FrontendMsg) : List Nat :=
  (match m.id with
   | some i => [i]
   | none => []) ++ natToBe32 (m.get_body.length + 4) ++ m.get_body

/-- Left-rotation of a 32-bit word (`x` assumed below `2^32`). -/
def rotl32 (x n : Nat) : Nat := ((x <<< n) % 2 ^ 32) ||| (x >>> (32 - n))

/-- Round constants of RFC 1321 (`floor(2^32 * abs(sin(i+1)))`). -/
def md5K : List Nat := [
  0xd76aa478, 0xe8c7b756, 0x242070db, 0xc1bdceee,
  0xf57c0faf, 0x4787c62a, 0xa8304613, 0xfd469501,
  0x698098d8, 0x8b44f7af, 0xffff5bb1, 0x895cd7be,
  0x6b901122, 0xfd987193, 0xa679438e, 0x49b40821,
  0xf61e2562, 0xc040b340, 0x265e5a51, 0xe9b6c7aa,
  0xd62f105d, 0x02441453, 0xd8a1e681, 0xe7d3fbc8,
  0x21e1cde6, 0xc33707d6, 0xf4d50d87, 0x455a14ed,
  0xa9e3e905, 0xfcefa3f8, 0x676f02d9, 0x8d2a4c8a,
  0xfffa3942, 0x8771f681, 0x6d9d6122, 0xfde5380c,
  0xa4beea44, 0x4bdecfa9, 0xf6bb4b60, 0xbebfbc70,
  0x289b7ec6, 0xeaa127fa, 0xd4ef3085, 0x04881d05,
  0xd9d4d039, 0xe6db99e5, 0x1fa27cf8, 0xc4ac5665,
  0xf4292244, 0x432aff97, 0xab9423a7, 0xfc93a039,
  0x655b59c3, 0x8f0ccc92, 0xffeff47d, 0x85845dd1,
  0x6fa87e4f, 0xfe2ce6e0, 0xa3014314, 0x4e0811a1,
  0xf7537e82, 0xbd3af235, 0x2ad7d2bb, 0xeb86d391]

/-- Per-round left-rotation amounts of RFC 1321. -/
def md5S : List Nat := [
  7, 12, 17, 22, 7, 12, 17, 22, 7, 12, 17, 22, 7, 12, 17, 22,
  5, 9, 14, 20, 5, 9, 14, 20, 5, 9, 14, 20, 5, 9, 14, 20,
  4, 11, 16, 23, 4, 11, 16, 23, 4, 11, 16, 23, 4, 11, 16, 23,
  6, 10, 15, 21, 6, 10, 15, 21, 6, 10, 15, 21, 6, 10, 15, 21]

/-- Little-endian 8-byte encoding of `n % 2^64`. -/
def natToLe64 (n : Nat) : List Nat :=
  [n % 256, n / 2 ^ 8 % 256, n / 2 ^ 16 % 256, n / 2 ^ 24 % 256,
   n / 2 ^ 32 % 256, n / 2 ^ 40 % 256, n / 2 ^ 48 % 256, n / 2 ^ 56 % 256]

/-- Little-endian 4-byte encoding of `n % 2^32`. -/
def natToLe32 (n : Nat) : List Nat :=
  [n % 256, n / 2 ^ 8 % 256, n / 2 ^ 16 % 256, n / 2 ^ 24 % 256]

/-- MD5 padding: a `0x80` byte, zeros to 56 mod 64, then the bit length as
a little-endian 64-bit quantity. -/
def md5Pad (msg : List Nat) : List Nat :=
  msg ++ [128] ++ List.replicate ((119 - msg.length % 64) % 64) 0 ++
    natToLe64 (8 * msg.length)

/-- The `j`-th little-endian 32-bit word of a 64-byte block. -/
def md5Word (block : List Nat) (j : Nat) : Nat :=
  block.getD (4 * j) 0 + 256 * block.getD (4 * j + 1) 0 +
    2 ^ 16 * block.getD (4 * j + 2) 0 + 2 ^ 24 * block.getD (4 * j + 3) 0

/-- One MD5 round operation (round index `i`, state `(a,b,c,d)`). -/
def md5Step (block : List Nat) (st : Nat × Nat × Nat × Nat) (i : Nat) :
    Nat × Nat × Nat × Nat :=
  let (a, b, c, d) := st
  let mask := 0xffffffff
  let f :=
    if i < 16 then (b &&& c) ||| ((b ^^^ mask) &&& d)
    else if i < 32 then (d &&& b) ||| ((d ^^^ mask) &&& c)
    else if i < 48 then b ^^^ c ^^^ d
    else c ^^^ (b ||| (d ^^^ mask))
  let g :=
    if i < 16 then i
    else if i < 32 then (5 * i + 1) % 16
    else if i < 48 then (3 * i + 5) % 16
    else (7 * i) % 16
  let tmp := (a + f + md5K.getD i 0 + md5Word block g) % 2 ^ 32
  (d, (b + rotl32 tmp (md5S.getD i 0)) % 2 ^ 32, b, c)

/-- Digest one 64-byte block into the running state. -/
def md5Block (st : Nat × Nat × Nat × Nat) (block : List Nat) :
    Nat × Nat × Nat × Nat :=
  let (a, b, c, d) := (List.range 64).foldl (md5Step block) st
  let (a0, b0, c0, d0) := st
  ((a0 + a) % 2 ^ 32, (b0 + b) % 2 ^ 32, (c0 + c) % 2 ^ 32, (d0 + d) % 2 ^ 32)

/-- The RFC 1321 MD5 digest (16 bytes) of a byte sequence. -/
def md5 (msg : List Nat) : List Nat :=
  let padded := md5Pad msg
  let st := (List.range (padded.length / 64)).foldl
    (fun st i => md5Block st ((padded.drop (64 * i)).take 64))
    (0x67452301, 0xefcdab89, 0x98badcfe, 0x10325476)
  natToLe32 st.1 ++ natToLe32 st.2.1 ++ natToLe32 st.2.2.1 ++ natToLe32 st.2.2.2

/-- Lowercase hexadecimal ASCII digit of a value below 16. -/
def hexDigit (n : Nat) : Nat := if n < 10 then 48 + n else 87 + n

/-- Lowercase hexadecimal ASCII encoding of a byte sequence. -/
def hexLower (bytes : List Nat) : List Nat :=
  bytes.flatMap fun b => [hexDigit (b / 16), hexDigit (b % 16)]

/-- Modelled from the spec: the source declares `pub mod auth;` and calls
`auth::build_md5_hash(&self.user, password, salt)`, but `src/auth.rs` is not
present.  Per §4.6 of the specification the hash is
`"md5" || hex(md5(hex(md5(password || user)) || salt))` with lowercase hex
and the RFC 1321 digest; `"md5"` is the ASCII bytes `109 100 53`. -/
def build_md5_hash (user password salt : List Nat) : List Nat :=
  [109, 100, 53] ++ hexLower (md5 (hexLower (md5 (password ++ user)) ++ salt))

/-- Mirrors `connection::ConnectionState`. -/
inductive ConnectionState
  | New
  | AwaitingAuthResponse
  | Authenticated
  | AuthenticationRejected
  | ReadyForQuery
  | AwaitingQueryResponse
  | AwaitingDataRows
  | Disconnected
deriving DecidableEq, Repr

/-- Mirrors `error::PgError` (payloads of `Io`, `Utf8`, `IntParse` and the
`Error(String)` text dropped). -/
inductive PgError
  | Io
  | Utf8
  | IntParse
  | ProtocolError (e : PErr)
  | Error
  | Unauthenticated
  | Other
deriving DecidableEq, Repr

/-- Mirrors `Connection::handle_auth` acting on the message popped from the
queue, for a connection with the given user and optional password in state
`st`.  Result: `(outcome, bytes written to the socket, next state)`;
`Ok true` means "keep waiting", `Ok false` "authenticated". -/
def handle_auth (user : List Nat) (password : Option (List Nat))
    (st : ConnectionState) (msg : Option ServerMsg) :
    Except PgError Bool × List Nat × ConnectionState :=
  match msg with
  | some (.Auth .Ok) => (.ok false, [], .Authenticated)
  | some (.Auth (.Md5 salt)) =>
    let passhash := build_md5_hash user (password.getD []) salt
    (.ok true, FrontendMsg.to_bytes (.PasswordMessage passhash), st)
  | some (.Auth _) => (.error .Error, [], st)
  | some (.ErrorResponse _) => (.error .Error, [], .AuthenticationRejected)
  | some _ => (.error .Error, [], st)
  | none => (.error .Error, [], st)

theorem take_msg_ok_shorter {input frame excess : List Nat}
    (h : take_msg input = .ok (frame, excess)) : excess.length < input.length := by
  unfold take_msg at h
  split at h
  case isTrue => exact absurd h (by simp)
  case isFalse hlen =>
    simp only [] at h
    split at h
    case isTrue => exact absurd h (by simp)
    case isFalse =>
      have : excess = input.drop (1 + beNat ((input.drop 1).take 4)) := by
        simp only [Except.ok.injEq, Prod.mk.injEq] at h
        exact h.2.symm
      subst this
      simp only [List.length_drop]
      omega

/-- The message-draining loop of `Connection::simple_query` (lines 236-264):
frame and decode messages from `remainder`, collecting data rows, until the
buffer is exhausted.  Result: `(outcome, state)`; `none` models a panic
inside `from_slice`. -/
def simpleQueryLoop (remainder : List Nat) (data : List (List (List Nat)))
    (st : ConnectionState) :
    Option (Except PgError (List (List (List Nat)))) × ConnectionState :=
  if hrem : remainder.isEmpty then (some (.ok data), st)
  else
    match htm : take_msg remainder with
    | .error e => (some (.error (.ProtocolError e)), st)
    | .ok (bytes, excess) =>
      match ServerMsg.from_slice bytes with
      | none => (none, st)
      | some (.error e) => (some (.error (.ProtocolError e)), st)
      | some (.ok msg) =>
        match msg with
        | .DataRow vec => simpleQueryLoop excess (data ++ [vec]) st
        | .RowDescription _ => simpleQueryLoop excess data .AwaitingDataRows
        | .CommandComplete _ => simpleQueryLoop excess data st
        | .ReadyForQuery =>
          if excess.isEmpty then simpleQueryLoop excess data .ReadyForQuery
          else (some (.error .Error), st)
        | .NoticeResponse _ => simpleQueryLoop excess data st
        | _ => (some (.error .Error), st)
termination_by remainder.length
decreasing_by
  all_goals exact take_msg_ok_shorter htm

/-- Mirrors `Connection::simple_query` for a connection whose socket will
deliver the bytes `input`: the `Query` message is sent unconditionally, the
state set to `AwaitingQueryResponse`, then the reply is drained.
`read_from_socket` spins until data arrives, so an empty `input` diverges
(`none`).  Result: `(outcome, bytes written, final state)`. -/
def simple_query (state : ConnectionState) (sql : List Nat) (input : List Nat) :
    Option (Except PgError (List (List (List Nat)))) × List Nat × ConnectionState :=
  let written := FrontendMsg.to_bytes (.Query sql)
  if input.isEmpty then (none, written, .AwaitingQueryResponse)
  else
    let (res, st) := simpleQueryLoop input [] .AwaitingQueryResponse
    (res, written, st)

/-- Decimal ASCII digits of `n` (Rust `u32::to_string`). -/
def natToDecimal (n : Nat) : List Nat := (Nat.toDigits 10 n).map Char.toNat

/-- Mirrors `Connection::prepare` for a connection with counter
`query_number` whose socket will deliver `input`: a `Parse` message named by
the counter is sent unconditionally (no state check), the counter bumped
(`u32` wrap-around), then exactly one `ParseComplete` reply is expected.
Result: `(outcome with the minted statement name, bytes written,
final state, new counter)`. -/
def prepare (state : ConnectionState) (query_number : Nat) (sql : List Nat)
    (input : List Nat) :
    Option (Except PgError (List Nat)) × List Nat × ConnectionState × Nat :=
  let query_name := natToDecimal query_number
  let written := FrontendMsg.to_bytes (.ParseMessage query_name sql [])
  let qn := (query_number + 1) % 2 ^ 32
  if input.isEmpty then (none, written, state, qn)
  else
    match take_msg input with
    | .error e => (some (.error (.ProtocolError e)), written, state, qn)
    | .ok (msg, rest) =>
      if rest.isEmpty then
        match ServerMsg.from_slice msg with
        | none => (none, written, state, qn)
        | some (.error e) => (some (.error (.ProtocolError e)), written, state, qn)
        | some (.ok .ParseComplete) => (some (.ok query_name), written, state, qn)
        | some (.ok (.ErrorResponse _)) => (some (.error .Error), written, state, qn)
        | some (.ok _) => (some (.error .Error), written, state, qn)
      else (some (.error .Other), written, state, qn)

/-- Mirrors `impl Drop for Connection`: a `Terminate` message is sent
(errors only logged) and the state set to `Disconnected`; the socket itself
is closed when the `TcpStream` field is dropped right after.
Result: `(bytes written, final state)`. -/
def drop_connection (state : ConnectionState) : List Nat × ConnectionState :=
  (FrontendMsg.to_bytes .Terminate, .Disconnected)

/-! Helper lemmas about frames and encoded pieces. -/

/-- A complete wire frame: identifier byte, big-endian length word counting
itself plus the body, then the body. -/
def mkFrame (idb : Nat) (body : List Nat) : List Nat :=
  idb :: natToBe32 (4 + body.length) ++ body

theorem length_natToBe32 (n : Nat) : (natToBe32 n).length = 4 := rfl

theorem length_mkFrame (idb : Nat) (body : List Nat) :
    (mkFrame idb body).length = 5 + body.length := by
  simp [mkFrame, natToBe32]
  omega

theorem mkFrame_drop_five (idb : Nat) (body : List Nat) :
    (mkFrame idb body).drop 5 = body := by
  simp [mkFrame, natToBe32]

theorem mkFrame_length_word (idb : Nat) (body : List Nat) :
    ((mkFrame idb body).drop 1).take 4 = natToBe32 (4 + body.length) := by
  simp only [mkFrame, List.drop_succ_cons, List.drop_zero]
  exact List.take_left' (length_natToBe32 _)

/-- Reduction of `ServerMsg::from_slice` on a well-formed frame: the header
checks pass and the result is the identifier dispatch on the body (or the
UTF-8 failure for a non-ASCII identifier). -/
theorem from_slice_mkFrame (idb : Nat) (body : List Nat)
    (hlen : 4 + body.length < 2 ^ 32) :
    ServerMsg.from_slice (mkFrame idb body) =
      if 128 ≤ idb then some (.error .Utf8)
      else from_slice_dispatch idb body := by
  unfold ServerMsg.from_slice
  rw [mkFrame_length_word, beNat_natToBe32 _ hlen, length_mkFrame,
    mkFrame_drop_five]
  have hhead : (mkFrame idb body).headD 0 = idb := rfl
  rw [hhead]
  simp only [if_neg (by omega : ¬ 5 + body.length < 5),
    if_neg (by omega : ¬ 5 + body.length ≠ 1 + (4 + body.length))]

/-- C9: destroying a `Ready` connection emits exactly the five bytes
`X 00 00 00 04` (the encoding of `Terminate`) and ends `Disconnected`
(the owned socket is closed when the `TcpStream` is dropped). -/
theorem drop_ready_emits_terminate :
    drop_connection .ReadyForQuery = ([88, 0, 0, 0, 4], .Disconnected) ∧
    FrontendMsg.to_bytes .Terminate = [88, 0, 0, 0, 4] :=
  ⟨rfl, rfl⟩

/-- C4: `take_msg` errors (consuming nothing) on fewer than 5 bytes, or on
fewer than `1 +` the length word's value; otherwise it splits exactly at
the frame boundary.  The 19-byte example splits into a 6-byte frame, then a
13-byte frame, with empty remainder. -/
theorem take_msg_spec :
    (∀ input : List Nat, (∀ b ∈ input, b < 256) →
      (input.length < 5 → take_msg input = .error .Error) ∧
      (5 ≤ input.length →
        (input.length < 1 + beNat ((input.drop 1).take 4) →
          take_msg input = .error .Error) ∧
        (1 + beNat ((input.drop 1).take 4) ≤ input.length →
          take_msg input = .ok (input.take (1 + beNat ((input.drop 1).take 4)),
            input.drop (1 + beNat ((input.drop 1).take 4))) ∧
          (input.take (1 + beNat ((input.drop 1).take 4))).length =
            1 + beNat ((input.drop 1).take 4) ∧
          input.take (1 + beNat ((input.drop 1).take 4)) ++
            input.drop (1 + beNat ((input.drop 1).take 4)) = input))) ∧
    take_msg [69, 0, 0, 0, 5, 1, 72, 0, 0, 0, 12, 1, 2, 3, 4, 5, 6, 7, 8] =
      .ok ([69, 0, 0, 0, 5, 1], [72, 0, 0, 0, 12, 1, 2, 3, 4, 5, 6, 7, 8]) ∧
    ([69, 0, 0, 0, 5, 1] : List Nat).length = 6 ∧
    take_msg [72, 0, 0, 0, 12, 1, 2, 3, 4, 5, 6, 7, 8] =
      .ok ([72, 0, 0, 0, 12, 1, 2, 3, 4, 5, 6, 7, 8], []) ∧
    ([72, 0, 0, 0, 12, 1, 2, 3, 4, 5, 6, 7, 8] : List Nat).length = 13 := by
  refine ⟨fun input _ => ⟨fun hshort => ?_, fun hlong => ⟨fun hneed => ?_, fun hok => ?_⟩⟩,
    rfl, rfl, rfl, rfl⟩
  · unfold take_msg
    rw [if_pos hshort]
  · unfold take_msg
    rw [if_neg (by omega)]
    simp only [if_pos hneed]
  · unfold take_msg
    rw [if_neg (by omega)]
    simp only [if_neg (by omega : ¬ input.length < 1 + beNat ((input.drop 1).take 4))]
    refine ⟨trivial, ?_, List.take_append_drop _ _⟩
    rw [List.length_take]
    omega

/-- Witness for `take_msg_spec` at concrete inputs: a 3-byte input errors,
and an 8-byte input whose length word is 10 errors (needs 11 bytes). -/
theorem take_msg_spec_witness :
    take_msg [1, 2, 3] = .error .Error ∧
    take_msg [72, 0, 0, 0, 10, 1, 2, 3] = .error .Error ∧
    take_msg [90, 0, 0, 0, 5, 73] = .ok ([90, 0, 0, 0, 5, 73], []) :=
  ⟨(take_msg_spec.1 [1, 2, 3] (by decide)).1 (by decide),
   ((take_msg_spec.1 [72, 0, 0, 0, 10, 1, 2, 3] (by decide)).2 (by decide)).1 (by decide),
   (((take_msg_spec.1 [90, 0, 0, 0, 5, 73] (by decide)).2 (by decide)).2 (by decide)).1⟩

/-- C6: every frontend message encodes as the optional identifier byte,
then a 4-byte big-endian length equal to body size plus 4, then the body;
for identified messages, framing the emitted bytes yields exactly that one
frame with empty remainder, and the frame's length word agrees with the
body length. -/
theorem to_bytes_framing (m : FrontendMsg)
    (hlen : m.get_body.length + 4 < 2 ^ 32) :
    FrontendMsg.to_bytes m =
      (match m.id with
       | some i => [i]
       | none => []) ++ natToBe32 (m.get_body.length + 4) ++ m.get_body ∧
    (∀ i, m.id = some i →
      take_msg m.to_bytes = .ok (m.to_bytes, []) ∧
      m.to_bytes.length = 5 + m.get_body.length ∧
      beNat ((m.to_bytes.drop 1).take 4) = m.get_body.length + 4) := by
  refine ⟨rfl, fun i hi => ?_⟩
  have hbytes : m.to_bytes = mkFrame i m.get_body := by
    unfold FrontendMsg.to_bytes mkFrame
    rw [hi, Nat.add_comm m.get_body.length 4]
    rfl
  have hword : beNat ((m.to_bytes.drop 1).take 4) = m.get_body.length + 4 := by
    rw [hbytes, mkFrame_length_word, beNat_natToBe32 _ (by omega), Nat.add_comm]
  refine ⟨?_, by rw [hbytes, length_mkFrame], hword⟩
  unfold take_msg
  rw [hword, hbytes, length_mkFrame]
  rw [if_neg (by omega), if_neg (by omega)]
  have h1 : 1 + (m.get_body.length + 4) = 5 + m.get_body.length := by omega
  rw [h1, ← length_mkFrame i m.get_body, List.take_length, List.drop_length]

/-- Witness for `to_bytes_framing`: the `Terminate` message frames to
itself with empty remainder. -/
theorem to_bytes_framing_witness :
    take_msg (FrontendMsg.to_bytes .Terminate) =
      .ok (FrontendMsg.to_bytes .Terminate, []) :=
  (((to_bytes_framing .Terminate (by decide)).2 88 rfl).1)

theorem dispatch_Z (body : List Nat) :
    from_slice_dispatch 90 body = some (.ok .ReadyForQuery) := rfl

theorem dispatch_R (body : List Nat) :
    from_slice_dispatch 82 body =
      (AuthMsg.from_slice body).map (Except.map ServerMsg.Auth) := rfl

theorem dispatch_K_panic (body : List Nat) (h8 : body.length ≠ 8) :
    from_slice_dispatch 75 body = none := by
  by_cases h4 : body.length < 4
  · simp [from_slice_dispatch, h4]
  · have ht : (body.take 4).length = 4 := by rw [List.length_take]; omega
    have hd : (body.drop 4).length ≠ 4 := by rw [List.length_drop]; omega
    simp [from_slice_dispatch, slice_to_u32, ht, hd, h4]
    rw [if_neg (by omega : ¬ body.length - 4 = 4)]

theorem auth_md5_long (body : List Nat) (ht4 : body.take 4 = [0, 0, 0, 5])
    (h8 : 8 ≤ body.length) :
    AuthMsg.from_slice body = some (.ok (.Md5 ((body.drop 4).take 4))) := by
  have hcode : beNat (body.take 4) = 5 := by rw [ht4]; rfl
  simp [AuthMsg.from_slice, hcode, (by omega : 4 ≤ body.length), h8]

theorem auth_md5_short (body : List Nat) (ht4 : body.take 4 = [0, 0, 0, 5])
    (h4 : 4 ≤ body.length) (h8 : body.length < 8) :
    AuthMsg.from_slice body = none := by
  have hcode : beNat (body.take 4) = 5 := by rw [ht4]; rfl
  simp [AuthMsg.from_slice, hcode, h4, (by omega : ¬ 8 ≤ body.length)]
  omega

/-- C1 counterexample: a `Z` frame with an empty body (one byte short)
succeeds as `ReadyForQuery`; a `K` frame with a 7-byte body panics rather
than returning a protocol-invalid error; an MD5 `R` frame with a 9-byte
body succeeds with the salt taken from bytes 4..8. -/
theorem z_k_r_counterexample :
    ServerMsg.from_slice [90, 0, 0, 0, 4] = some (.ok .ReadyForQuery) ∧
    ServerMsg.from_slice [75, 0, 0, 0, 11, 1, 2, 3, 4, 5, 6, 7] = none ∧
    ServerMsg.from_slice [82, 0, 0, 0, 13, 0, 0, 0, 5, 9, 8, 7, 6, 1] =
      some (.ok (.Auth (.Md5 [9, 8, 7, 6]))) :=
  ⟨rfl, rfl, rfl⟩

/-- C1 amended: `from_slice` does not verify body length against the
payload for these identifiers: a `Z` frame decodes to `ReadyForQuery`
whatever its body length; a `K` frame whose body is not exactly 8 bytes
panics instead of returning an error; an MD5 `R` frame panics when its body
is shorter than 8 bytes and succeeds (extra bytes ignored) when it is 8
bytes or longer. -/
theorem z_k_r_length_behaviour :
    (∀ body : List Nat, 4 + body.length < 2 ^ 32 →
      ServerMsg.from_slice (mkFrame 90 body) = some (.ok .ReadyForQuery)) ∧
    (∀ body : List Nat, 4 + body.length < 2 ^ 32 → body.length ≠ 8 →
      ServerMsg.from_slice (mkFrame 75 body) = none) ∧
    (∀ body : List Nat, 4 + body.length < 2 ^ 32 → body.take 4 = [0, 0, 0, 5] →
      (8 ≤ body.length →
        ServerMsg.from_slice (mkFrame 82 body) =
          some (.ok (.Auth (.Md5 ((body.drop 4).take 4))))) ∧
      (4 ≤ body.length → body.length < 8 →
        ServerMsg.from_slice (mkFrame 82 body) = none)) := by
  refine ⟨fun body hlen => ?_, fun body hlen h8 => ?_, fun body hlen ht4 => ⟨fun h8 => ?_, fun h4 h8 => ?_⟩⟩
  · rw [from_slice_mkFrame _ _ hlen, if_neg (by omega), dispatch_Z]
  · rw [from_slice_mkFrame _ _ hlen, if_neg (by omega), dispatch_K_panic _ h8]
  · rw [from_slice_mkFrame _ _ hlen, if_neg (by omega), dispatch_R,
      auth_md5_long _ ht4 h8]
    rfl
  · rw [from_slice_mkFrame _ _ hlen, if_neg (by omega), dispatch_R,
      auth_md5_short _ ht4 h4 h8]
    rfl

/-- Witness for `z_k_r_length_behaviour` at concrete frames. -/
theorem z_k_r_length_behaviour_witness :
    ServerMsg.from_slice (mkFrame 90 [73, 73]) = some (.ok .ReadyForQuery) ∧
    ServerMsg.from_slice (mkFrame 75 [1, 2, 3, 4, 5, 6, 7, 8, 9]) = none ∧
    ServerMsg.from_slice (mkFrame 82 [0, 0, 0, 5, 1, 2, 3, 4, 5]) =
      some (.ok (.Auth (.Md5 [1, 2, 3, 4]))) ∧
    ServerMsg.from_slice (mkFrame 82 [0, 0, 0, 5, 1, 2]) = none :=
  ⟨z_k_r_length_behaviour.1 [73, 73] (by decide),
   z_k_r_length_behaviour.2.1 [1, 2, 3, 4, 5, 6, 7, 8, 9] (by decide) (by decide),
   (z_k_r_length_behaviour.2.2 [0, 0, 0, 5, 1, 2, 3, 4, 5] (by decide) (by decide)).1 (by decide),
   (z_k_r_length_behaviour.2.2 [0, 0, 0, 5, 1, 2] (by decide) (by decide)).2 (by decide) (by decide)⟩

/-- C8 counterexample: a complete frame whose identifier byte is `0x80`
fails with a UTF-8 error instead of succeeding as `Unknown`. -/
theorem unknown_identifier_counterexample :
    ServerMsg.from_slice [128, 0, 0, 0, 4] = some (.error .Utf8) := rfl

/-- C8 amended: a complete frame with an unrecognised ASCII identifier
(below 128) succeeds as `Unknown(identifier, body)`, but every identifier
byte `0x80..0xFF` fails with `ProtocolError::Utf8` because the one-byte
identifier slice is not valid UTF-8. -/
theorem unknown_identifier_behaviour :
    (∀ idb body, idb < 128 →
      idb ∉ ([73, 82, 83, 75, 84, 68, 67, 90, 78, 69, 49, 50, 51] : List Nat) →
      4 + body.length < 2 ^ 32 →
      ServerMsg.from_slice (mkFrame idb body) = some (.ok (.Unknown idb body))) ∧
    (∀ idb body, 128 ≤ idb → 4 + body.length < 2 ^ 32 →
      ServerMsg.from_slice (mkFrame idb body) = some (.error .Utf8)) := by
  constructor
  · intro idb body hascii hnotin hlen
    rw [from_slice_mkFrame _ _ hlen, if_neg (by omega)]
    simp only [List.mem_cons, List.not_mem_nil, or_false] at hnotin
    push_neg at hnotin
    obtain ⟨h1, h2, h3, h4, h5, h6, h7, h8, h9, h10, h11, h12, h13⟩ := hnotin
    simp [from_slice_dispatch, h1, h2, h3, h4, h5, h6, h7, h8, h9, h10, h11, h12, h13]
  · intro idb body h128 hlen
    rw [from_slice_mkFrame _ _ hlen, if_pos h128]

/-- Witness for `unknown_identifier_behaviour`: identifier `A` (65) is
accepted as `Unknown`, identifier `0xC8` fails with `Utf8`. -/
theorem unknown_identifier_behaviour_witness :
    ServerMsg.from_slice (mkFrame 65 [1, 2]) = some (.ok (.Unknown 65 [1, 2])) ∧
    ServerMsg.from_slice (mkFrame 200 [1, 2]) = some (.error .Utf8) :=
  ⟨unknown_identifier_behaviour.1 65 [1, 2] (by decide) (by decide) (by decide),
   unknown_identifier_behaviour.2 200 [1, 2] (by decide) (by decide)⟩

/-- C10: `from_slice` is partial on frames `take_msg` accepts: every `K`
frame whose body is not exactly 8 bytes panics in `slice_to_u32`; the `S`
frame `S 00 00 00 05 'a'` (body without two NULs) panics on `unwrap`; the
`E` frame with fields `C"42"`, `M"x"` but no `S` panics on the map indexing
in the notice-body constructor.  Each of these frames is accepted whole by
`take_msg`. -/
theorem from_slice_panics :
    (∀ body : List Nat, 4 + body.length < 2 ^ 32 → body.length ≠ 8 →
      ServerMsg.from_slice (mkFrame 75 body) = none ∧
      take_msg (mkFrame 75 body) = .ok (mkFrame 75 body, [])) ∧
    ServerMsg.from_slice [83, 0, 0, 0, 5, 97] = none ∧
    take_msg [83, 0, 0, 0, 5, 97] = .ok ([83, 0, 0, 0, 5, 97], []) ∧
    ServerMsg.from_slice [69, 0, 0, 0, 12, 67, 52, 50, 0, 77, 120, 0, 0] = none ∧
    take_msg [69, 0, 0, 0, 12, 67, 52, 50, 0, 77, 120, 0, 0] =
      .ok ([69, 0, 0, 0, 12, 67, 52, 50, 0, 77, 120, 0, 0], []) := by
  refine ⟨fun body hlen h8 => ⟨?_, ?_⟩, ?_, rfl, ?_, rfl⟩
  · rw [from_slice_mkFrame _ _ hlen, if_neg (by omega), dispatch_K_panic _ h8]
  · unfold take_msg
    rw [mkFrame_length_word, beNat_natToBe32 _ hlen, length_mkFrame]
    rw [if_neg (by omega), if_neg (by omega)]
    have h1 : 1 + (4 + body.length) = 5 + body.length := by omega
    rw [h1, ← length_mkFrame 75 body, List.take_length, List.drop_length]
  · rfl
  · simp [ServerMsg.from_slice, from_slice_dispatch, NoticeBody.from_bytes,
      parseNoticeFields, take_cstring_plus_fixed, find_first, utf8Valid,
      noticeKnownTags, insertPart, noticeFinish, beNat]

/-- Witness for `from_slice_panics` at a 7-byte `K` body. -/
theorem from_slice_panics_witness :
    ServerMsg.from_slice (mkFrame 75 [1, 2, 3, 4, 5, 6, 7]) = none ∧
    take_msg (mkFrame 75 [1, 2, 3, 4, 5, 6, 7]) =
      .ok (mkFrame 75 [1, 2, 3, 4, 5, 6, 7], []) :=
  from_slice_panics.1 [1, 2, 3, 4, 5, 6, 7] (by decide) (by decide)

set_option maxRecDepth 10000 in
/-- C7: on MD5 authentication for user `"u"`, password `"p"` and salt
`AA BB CC DD`, `handle_auth` emits a `PasswordMessage` whose hash is
`"md5" || hex(md5(hex(md5(password || user)) || salt))`, concretely the
35 ASCII bytes of `"md5294fa294d81e899629510a5b0b4aee32"`. -/
theorem md5_password_message :
    handle_auth [117] (some [112]) .AwaitingAuthResponse
        (some (.Auth (.Md5 [170, 187, 204, 221]))) =
      (.ok true,
       FrontendMsg.to_bytes (.PasswordMessage
         (build_md5_hash [117] [112] [170, 187, 204, 221])),
       .AwaitingAuthResponse) ∧
    build_md5_hash [117] [112] [170, 187, 204, 221] =
      [109, 100, 53] ++
        hexLower (md5 (hexLower (md5 ([112] ++ [117])) ++ [170, 187, 204, 221])) ∧
    build_md5_hash [117] [112] [170, 187, 204, 221] =
      [109, 100, 53, 50, 57, 52, 102, 97, 50, 57, 52, 100, 56, 49, 101, 56,
       57, 57, 54, 50, 57, 53, 49, 48, 97, 53, 98, 48, 98, 52, 97, 101, 101,
       51, 50] ∧
    (build_md5_hash [117] [112] [170, 187, 204, 221]).length = 35 ∧
    (build_md5_hash [117] [112] [170, 187, 204, 221]).all
      (fun b => Nat.blt b 128) = true :=
  ⟨rfl, rfl, by decide, by decide, by decide⟩

/-- C3 counterexample: with the session state `New` (not `Ready`),
`simple_query` still writes the encoded `Query` to the socket and returns
the collected rows (no state error of any kind), and `prepare` still
writes the `Parse` message and succeeds. -/
theorem state_not_checked_counterexample :
    simple_query .New [120] [90, 0, 0, 0, 5, 73] =
      (some (.ok []), FrontendMsg.to_bytes (.Query [120]), .ReadyForQuery) ∧
    FrontendMsg.to_bytes (.Query [120]) = [81, 0, 0, 0, 6, 120, 0] ∧
    prepare .New 0 [120] [49, 0, 0, 0, 4] =
      (some (.ok [48]), FrontendMsg.to_bytes (.ParseMessage [48] [120] []),
       .New, 1) := by
  refine ⟨?_, rfl, rfl⟩
  simp [simple_query, simpleQueryLoop, take_msg, beNat, ServerMsg.from_slice,
    from_slice_dispatch]

/-- C3 amended: neither `simple_query` nor `prepare` inspects the session
state: `simple_query` behaves identically in every starting state and
always writes the encoded `Query`; `prepare` always writes the encoded
`Parse` message, leaves the state unchanged and bumps the counter.  (The
error enum has no `State(expected, actual)` variant at all.) -/
theorem state_not_checked :
    (∀ (st st' : ConnectionState) (sql input : List Nat),
      simple_query st sql input = simple_query st' sql input) ∧
    (∀ (st : ConnectionState) (sql input : List Nat),
      (simple_query st sql input).2.1 = FrontendMsg.to_bytes (.Query sql)) ∧
    (∀ (st : ConnectionState) (qn : Nat) (sql input : List Nat),
      (prepare st qn sql input).2 =
        (FrontendMsg.to_bytes (.ParseMessage (natToDecimal qn) sql []),
         st, (qn + 1) % 2 ^ 32)) := by
  refine ⟨fun st st' sql input => rfl, fun st sql input => ?_, fun st qn sql input => ?_⟩
  · unfold simple_query
    by_cases h : input.isEmpty
    · rw [if_pos h]
    · rw [if_neg h]
  · unfold prepare
    repeat' split
    all_goals rfl

/-- Witness for `state_not_checked` at concrete states and inputs. -/
theorem state_not_checked_witness :
    simple_query .Disconnected [120] [] = simple_query .ReadyForQuery [120] [] ∧
    (simple_query .Authenticated [120] []).2.1 =
      FrontendMsg.to_bytes (.Query [120]) ∧
    (prepare .AwaitingDataRows 7 [120] []).2 =
      (FrontendMsg.to_bytes (.ParseMessage (natToDecimal 7) [120] []),
       .AwaitingDataRows, (7 + 1) % 2 ^ 32) :=
  ⟨state_not_checked.1 _ _ _ _, state_not_checked.2.1 _ _ _,
   state_not_checked.2.2 _ _ _ _⟩

theorem take_append_len {l₁ l₂ : List Nat} {n : Nat} (h : l₁.length = n) :
    (l₁ ++ l₂).take n = l₁ := by
  subst h
  simp

theorem drop_append_len {l₁ l₂ : List Nat} {n : Nat} (h : l₁.length = n) :
    (l₁ ++ l₂).drop n = l₂ := by
  subst h
  simp

theorem length_natToBe16 (n : Nat) : (natToBe16 n).length = 2 := rfl

/-- The wire encoding of a list of data-row columns: each column a `u32`
big-endian length then its bytes. -/
def encodeDataRowCols (cols : List (List Nat)) : List Nat :=
  cols.flatMap fun c => natToBe32 c.length ++ c

theorem take_sized_string_encode (c r : List Nat) (hu : utf8Valid c)
    (hc : c.length < 2 ^ 32) :
    take_sized_string (natToBe32 c.length ++ (c ++ r)) = some (.ok (c, r)) := by
  have hlen : (natToBe32 c.length ++ (c ++ r)).length = 4 + (c.length + r.length) := by
    simp [natToBe32]
    omega
  unfold take_sized_string
  rw [take_append_len (length_natToBe32 _), beNat_natToBe32 _ hc, hlen]
  rw [if_neg (by omega), if_pos (by omega)]
  rw [drop_append_len (length_natToBe32 _), take_append_len rfl, if_pos hu]
  have hdrop : (natToBe32 c.length ++ (c ++ r)).drop (4 + c.length) = r := by
    rw [show (4 : Nat) + c.length = (natToBe32 c.length ++ c).length by
      simp [natToBe32]; omega]
    rw [← List.append_assoc]
    exact drop_append_len rfl
  rw [hdrop]

theorem dataRowLoop_encode (cols : List (List Nat)) (rest : List Nat)
    (acc : List (List Nat))
    (h : ∀ c ∈ cols, utf8Valid c ∧ c.length < 2 ^ 32) :
    dataRowLoop cols.length (encodeDataRowCols cols ++ rest) acc =
      if rest.isEmpty then some (.ok (.DataRow (acc ++ cols)))
      else some (.error .Error) := by
  induction cols generalizing acc with
  | nil => simp [encodeDataRowCols, dataRowLoop]
  | cons c cols ih =>
    obtain ⟨hu, hc⟩ := h c (List.mem_cons_self _ _)
    have hrest := fun x hx => h x (List.mem_cons_of_mem _ hx)
    have henc : encodeDataRowCols (c :: cols) ++ rest =
        natToBe32 c.length ++ (c ++ (encodeDataRowCols cols ++ rest)) := by
      simp [encodeDataRowCols]
    rw [List.length_cons, henc]
    show dataRowLoop (cols.length + 1) _ acc = _
    unfold dataRowLoop
    rw [take_sized_string_encode c _ hu hc]
    show dataRowLoop cols.length (encodeDataRowCols cols ++ rest) (acc ++ [c]) = _
    rw [ih _ hrest]
    have : acc ++ [c] ++ cols = acc ++ (c :: cols) := by simp
    rw [this]

theorem dispatch_D (extra : List Nat) :
    from_slice_dispatch 68 extra =
      if extra.length < 2 then none
      else dataRowLoop (beNat (extra.take 2)) (extra.drop 2) [] := rfl

/-- C5 counterexample: a `D` frame with one column of wire length `-1`
(which per the claim should decode to NULL) panics, because the length is
read as the unsigned value 4294967295 and the body slice is out of range;
and a `D` frame whose single 1-byte column is the non-UTF-8 byte `0xFF`
(per the claim arbitrary bytes are allowed) also panics, on `unwrap` of the
UTF-8 error. -/
theorem data_row_counterexample :
    ServerMsg.from_slice [68, 0, 0, 0, 10, 0, 1, 255, 255, 255, 255] = none ∧
    ServerMsg.from_slice [68, 0, 0, 0, 11, 0, 1, 0, 0, 0, 1, 255] = none :=
  ⟨rfl, rfl⟩

/-- C5 amended: decoding a `D` frame yields exactly as many columns as the
leading `u16` count, where each column is a `u32` big-endian length
followed by that many bytes which must be valid UTF-8; the body must be
fully consumed and trailing bytes are rejected with an error.  There is no
NULL handling: a wire length of `-1` is treated as the huge unsigned value
4294967295 and panics (out-of-range slice), and a non-UTF-8 column panics
on `unwrap`. -/
theorem data_row_roundtrip :
    (∀ (cols : List (List Nat)) (junk : List Nat),
      (∀ c ∈ cols, utf8Valid c ∧ c.length < 2 ^ 32) →
      cols.length < 2 ^ 16 →
      4 + (natToBe16 cols.length ++ (encodeDataRowCols cols ++ junk)).length < 2 ^ 32 →
      ServerMsg.from_slice
          (mkFrame 68 (natToBe16 cols.length ++ (encodeDataRowCols cols ++ junk))) =
        if junk.isEmpty then some (.ok (.DataRow cols))
        else some (.error .Error)) ∧
    ServerMsg.from_slice [68, 0, 0, 0, 15, 0, 2, 0, 0, 0, 1, 97, 255, 255, 255, 255] =
      none ∧
    ServerMsg.from_slice [68, 0, 0, 0, 12, 0, 1, 0, 0, 0, 2, 195, 40] = none := by
  refine ⟨fun cols junk hcols h16 hlen => ?_, rfl, rfl⟩
  rw [from_slice_mkFrame _ _ hlen, if_neg (by omega), dispatch_D]
  have hlen2 : (natToBe16 cols.length ++ (encodeDataRowCols cols ++ junk)).length =
      2 + (encodeDataRowCols cols ++ junk).length := by
    simp [natToBe16]
    omega
  rw [hlen2, if_neg (by omega)]
  rw [take_append_len (length_natToBe16 _), beNat_natToBe16 _ h16,
    drop_append_len (length_natToBe16 _)]
  rw [dataRowLoop_encode cols junk [] hcols]
  simp

/-- Witness for `data_row_roundtrip`: a frame with columns `"a"` and `""`
decodes to exactly those two columns, and the same frame extended with one
trailing byte is rejected. -/
theorem data_row_roundtrip_witness :
    ServerMsg.from_slice
        (mkFrame 68 (natToBe16 2 ++ (encodeDataRowCols [[97], []] ++ []))) =
      some (.ok (.DataRow [[97], []])) ∧
    ServerMsg.from_slice
        (mkFrame 68 (natToBe16 2 ++ (encodeDataRowCols [[97], []] ++ [7]))) =
      some (.error .Error) :=
  ⟨data_row_roundtrip.1 [[97], []] [] (by decide) (by decide) (by decide),
   data_row_roundtrip.1 [[97], []] [7] (by decide) (by decide) (by decide)⟩

/-- The wire encoding of a list of notice fields: each field a tag byte
then its NUL-terminated value (the closing zero tag is appended by the
caller). -/
def encodeNoticeFields (fs : List (Nat × List Nat)) : List Nat :=
  fs.flatMap fun f => f.1 :: (f.2 ++ [0])

/-- Well-formedness of notice fields: nonzero tag, NUL-free value, valid
UTF-8 value. -/
def noticeFieldsWF (fs : List (Nat × List Nat)) : Prop :=
  ∀ f ∈ fs, f.1 ≠ 0 ∧ (∀ b ∈ f.2, b ≠ 0) ∧ utf8Valid f.2

instance (fs : List (Nat × List Nat)) : Decidable (noticeFieldsWF fs) := by
  unfold noticeFieldsWF
  infer_instance

/-- One step of the field loop on the tag map. -/
def collectStep (m : Nat → Option (List Nat)) (f : Nat × List Nat) :
    Nat → Option (List Nat) :=
  if f.1 ∈ noticeKnownTags then insertPart m f.1 f.2 else m

/-- The tag map accumulated by the field loop over `fs`. -/
def collectParts (fs : List (Nat × List Nat)) (parts : Nat → Option (List Nat)) :
    Nat → Option (List Nat) :=
  fs.foldl collectStep parts

/-- The unknown-tag overflow list accumulated by the field loop over `fs`. -/
def collectMore (fs : List (Nat × List Nat)) (more : List (Nat × List Nat)) :
    List (Nat × List Nat) :=
  fs.foldl (fun mo f => if f.1 ∈ noticeKnownTags then mo else mo ++ [f]) more

theorem find_first_append (v rest : List Nat) (hv : ∀ b ∈ v, b ≠ 0) :
    find_first (v ++ 0 :: rest) 0 = some v.length := by
  induction v with
  | nil => rfl
  | cons b v ih =>
    have hb : b ≠ 0 := hv b (List.mem_cons_self _ _)
    have hv' := fun x hx => hv x (List.mem_cons_of_mem _ hx)
    simp only [List.cons_append, find_first, if_neg hb, List.append_eq, ih hv',
      List.length_cons]
    rfl

theorem take_cstring_encode (v rest : List Nat) (hv0 : ∀ b ∈ v, b ≠ 0)
    (hu : utf8Valid v) :
    take_cstring_plus_fixed (v ++ 0 :: rest) 0 = some (.ok (v, [], rest)) := by
  unfold take_cstring_plus_fixed
  rw [find_first_append v rest hv0]
  have hle : v.length + 1 + 0 ≤ (v ++ 0 :: rest).length := by
    simp
  have hdrop : (v ++ 0 :: rest).drop (v.length + 1) = rest := by
    rw [show v ++ 0 :: rest = (v ++ [0]) ++ rest by simp,
      show v.length + 1 = (v ++ [0]).length by simp]
    exact drop_append_len rfl
  simp [take_append_len rfl, hu, hle, hdrop]

theorem parseNoticeFields_encode (fs : List (Nat × List Nat))
    (parts : Nat → Option (List Nat)) (more : List (Nat × List Nat))
    (h : noticeFieldsWF fs) :
    parseNoticeFields (encodeNoticeFields fs ++ [0]) parts more =
      some (.ok (collectParts fs parts, collectMore fs more)) := by
  induction fs generalizing parts more with
  | nil =>
    simp [encodeNoticeFields, parseNoticeFields, collectParts, collectMore]
  | cons f fs ih =>
    obtain ⟨hf0, hv0, hu⟩ := h f (List.mem_cons_self _ _)
    have hrest : noticeFieldsWF fs := fun x hx => h x (List.mem_cons_of_mem _ hx)
    have henc : encodeNoticeFields (f :: fs) ++ [0] =
        f.1 :: (f.2 ++ 0 :: (encodeNoticeFields fs ++ [0])) := by
      simp [encodeNoticeFields]
    rw [henc]
    rw [parseNoticeFields]
    rw [if_neg hf0, take_cstring_encode _ _ hv0 hu]
    have hne : (encodeNoticeFields fs ++ [0]).isEmpty = false := by simp
    simp only [hne]
    rw [ih _ _ hrest]
    by_cases hk : f.1 ∈ noticeKnownTags <;>
      simp [collectParts, collectMore, collectStep, hk]

/-- Whether a decode outcome is a success (`Ok`, as opposed to `Err` or a
panic). -/
def statusOk (o : Option (Except PErr NoticeBody)) : Bool :=
  match o with
  | some (.ok _) => true
  | _ => false

/-- Whether `NoticeBody::from_bytes` accepts a body. -/
def noticeAccepts (bytes : List Nat) : Bool :=
  statusOk (NoticeBody.from_bytes bytes)

/-- Acceptance in terms of the tag map alone: `P` (else `p`) must parse as
a decimal if present, and `S`, `C`, `M` must all be present. -/
def acceptsParts (parts : Nat → Option (List Nat)) : Bool :=
  (match parts 80 with
   | some pos => (parseUsize pos).isSome
   | none =>
     match parts 112 with
     | some pos => (parseUsize pos).isSome
     | none => true) &&
  (parts 83).isSome && (parts 67).isSome && (parts 77).isSome

theorem noticeFinish_accepts (parts : Nat → Option (List Nat))
    (more : List (Nat × List Nat)) :
    statusOk (noticeFinish parts more) = acceptsParts parts := by
  unfold noticeFinish acceptsParts
  rcases h80 : parts 80 with _ | p80
  · rcases h112 : parts 112 with _ | p112
    · rcases h83 : parts 83 with _ | s <;> rcases h67 : parts 67 with _ | c <;>
        rcases h77 : parts 77 with _ | m <;> simp [statusOk, *]
    · rcases hp : parseUsize p112 with _ | n
      · simp [statusOk, *]
      · rcases h83 : parts 83 with _ | s <;> rcases h67 : parts 67 with _ | c <;>
          rcases h77 : parts 77 with _ | m <;> simp [statusOk, *]
  · rcases hp : parseUsize p80 with _ | n
    · simp [statusOk, *]
    · rcases h83 : parts 83 with _ | s <;> rcases h67 : parts 67 with _ | c <;>
        rcases h77 : parts 77 with _ | m <;> simp [statusOk, *]

theorem collectStep_comm (m : Nat → Option (List Nat)) (f g : Nat × List Nat)
    (hne : f.1 ≠ g.1) :
    collectStep (collectStep m f) g = collectStep (collectStep m g) f := by
  by_cases hf : f.1 ∈ noticeKnownTags <;> by_cases hg : g.1 ∈ noticeKnownTags <;>
    simp only [collectStep, if_pos, if_neg, hf, hg, ite_true, ite_false]
  funext c
  unfold insertPart
  by_cases hcg : c = g.1 <;> by_cases hcf : c = f.1 <;>
    simp [hcg, hcf, hne, hne.symm]

theorem collectParts_perm {fs fs' : List (Nat × List Nat)}
    (h : fs.Perm fs') :
    (fs.map Prod.fst).Nodup →
      ∀ parts, collectParts fs parts = collectParts fs' parts := by
  induction h with
  | nil => exact fun _ _ => rfl
  | cons x h ih =>
    intro nd parts
    simp only [List.map_cons, List.nodup_cons] at nd
    simp only [collectParts, List.foldl_cons]
    exact ih nd.2 _
  | swap x y l =>
    intro nd parts
    simp only [List.map_cons, List.nodup_cons, List.mem_cons] at nd
    have hne : y.1 ≠ x.1 := fun hyx => nd.1 (Or.inl hyx)
    simp only [collectParts, List.foldl_cons]
    rw [collectStep_comm _ _ _ hne]
  | trans h1 h2 ih1 ih2 =>
    intro nd parts
    have nd2 := ((h1.map Prod.fst).nodup_iff).mp nd
    rw [ih1 nd _, ih2 nd2 _]

/-- C2 counterexample: a body with `S` and `C` but no `M` panics rather
than failing with an error; and acceptance is not order-independent: the
fields `S"E" C"42" M"x" P"1" P"z"` are rejected in this order (the later
`P"z"` wins and fails decimal parsing) but accepted with the two `P` fields
swapped (`P"1"` wins). -/
theorem notice_counterexample :
    NoticeBody.from_bytes [83, 69, 0, 67, 52, 50, 0, 0] = none ∧
    noticeAccepts [83, 69, 0, 67, 52, 50, 0, 77, 120, 0, 80, 49, 0, 80, 122, 0, 0] =
      false ∧
    noticeAccepts [83, 69, 0, 67, 52, 50, 0, 77, 120, 0, 80, 122, 0, 80, 49, 0, 0] =
      true := by
  refine ⟨?_, ?_, ?_⟩ <;>
    simp [NoticeBody.from_bytes, parseNoticeFields, take_cstring_plus_fixed,
      find_first, utf8Valid, noticeKnownTags, insertPart, noticeFinish,
      noticeAccepts, statusOk, parseUsize]

/-- Whether the position fields of the tag map fail decimal parsing: a
present `P` (else a present `p`) whose value `usize::from_str` rejects. -/
def noticePosParseErr (parts : Nat → Option (List Nat)) : Bool :=
  match parts 80 with
  | some pos => !(parseUsize pos).isSome
  | none =>
    match parts 112 with
    | some pos => !(parseUsize pos).isSome
    | none => false

theorem acceptsParts_eq (parts : Nat → Option (List Nat)) :
    acceptsParts parts =
      (!noticePosParseErr parts && (parts 83).isSome && (parts 67).isSome &&
        (parts 77).isSome) := by
  unfold acceptsParts noticePosParseErr
  rcases h80 : parts 80 with _ | p80
  · rcases h112 : parts 112 with _ | p112 <;> simp
  · simp

theorem noticeFinish_parseIntErr (parts : Nat → Option (List Nat))
    (more : List (Nat × List Nat)) (h : noticePosParseErr parts = true) :
    noticeFinish parts more = some (.error .ParseInt) := by
  unfold noticeFinish
  unfold noticePosParseErr at h
  rcases h80 : parts 80 with _ | p80
  · rcases h112 : parts 112 with _ | p112
    · simp_all
    · rcases hp : parseUsize p112 with _ | n <;> simp_all
  · rcases hp : parseUsize p80 with _ | n <;> simp_all

theorem noticeFinish_missing (parts : Nat → Option (List Nat))
    (more : List (Nat × List Nat)) (hpos : noticePosParseErr parts = false)
    (hmiss : (parts 83).isSome = false ∨ (parts 67).isSome = false ∨
      (parts 77).isSome = false) :
    noticeFinish parts more = none := by
  unfold noticeFinish
  unfold noticePosParseErr at hpos
  rcases h80 : parts 80 with _ | p80
  · rcases h112 : parts 112 with _ | p112
    · rcases h83 : parts 83 with _ | s <;> rcases h67 : parts 67 with _ | c <;>
        rcases h77 : parts 77 with _ | m <;> simp_all
    · rcases hp : parseUsize p112 with _ | n
      · simp_all
      · rcases h83 : parts 83 with _ | s <;> rcases h67 : parts 67 with _ | c <;>
          rcases h77 : parts 77 with _ | m <;> simp_all
  · rcases hp : parseUsize p80 with _ | n
    · simp_all
    · rcases h83 : parts 83 with _ | s <;> rcases h67 : parts 67 with _ | c <;>
        rcases h77 : parts 77 with _ | m <;> simp_all

theorem from_bytes_encode (fs : List (Nat × List Nat)) (wf : noticeFieldsWF fs) :
    NoticeBody.from_bytes (encodeNoticeFields fs ++ [0]) =
      noticeFinish (collectParts fs (fun _ => none)) (collectMore fs []) := by
  unfold NoticeBody.from_bytes
  rw [parseNoticeFields_encode fs _ _ wf]
  have he : (encodeNoticeFields fs ++ [0]).isEmpty = false := by simp
  simp only [he, Bool.false_eq_true, if_false]

/-- C2 amended: for every well-formed field list, writing `parts` for the
accumulated tag map: when the position field (`P`, else `p`) is absent or
parses as a decimal, a body missing `S`, `C` or `M` makes `from_bytes`
panic on the direct map indexing (it does not return, and in particular
never returns an error for the missing field); when a present `P`/`p`
value fails decimal parsing, `from_bytes` returns `Err(ParseInt)` before
the presence check is reached; a body is accepted exactly when the
position field (if any) parses and `S`, `C`, `M` are all present — `V` is
never required and does not substitute for `S`; and for bodies whose
fields carry pairwise-distinct tags, acceptance is invariant under any
reordering of the fields. -/
theorem notice_presence_order :
    (∀ fs : List (Nat × List Nat), noticeFieldsWF fs →
      (noticePosParseErr (collectParts fs (fun _ => none)) = false →
        ((collectParts fs (fun _ => none) 83).isSome = false ∨
         (collectParts fs (fun _ => none) 67).isSome = false ∨
         (collectParts fs (fun _ => none) 77).isSome = false) →
        NoticeBody.from_bytes (encodeNoticeFields fs ++ [0]) = none) ∧
      (noticePosParseErr (collectParts fs (fun _ => none)) = true →
        NoticeBody.from_bytes (encodeNoticeFields fs ++ [0]) =
          some (.error .ParseInt)) ∧
      noticeAccepts (encodeNoticeFields fs ++ [0]) =
        (!noticePosParseErr (collectParts fs (fun _ => none)) &&
         (collectParts fs (fun _ => none) 83).isSome &&
         (collectParts fs (fun _ => none) 67).isSome &&
         (collectParts fs (fun _ => none) 77).isSome)) ∧
    (∀ fs fs' : List (Nat × List Nat), fs.Perm fs' →
      (fs.map Prod.fst).Nodup → noticeFieldsWF fs →
      noticeAccepts (encodeNoticeFields fs ++ [0]) =
        noticeAccepts (encodeNoticeFields fs' ++ [0])) := by
  refine ⟨fun fs wf => ⟨fun hpos hmiss => ?_, fun hpos => ?_, ?_⟩,
    fun fs fs' hperm nd wf => ?_⟩
  · rw [from_bytes_encode fs wf]
    exact noticeFinish_missing _ _ hpos hmiss
  · rw [from_bytes_encode fs wf]
    exact noticeFinish_parseIntErr _ _ hpos
  · unfold noticeAccepts
    rw [from_bytes_encode fs wf, noticeFinish_accepts, acceptsParts_eq]
  · have wf' : noticeFieldsWF fs' := fun x hx => wf x (hperm.mem_iff.mpr hx)
    unfold noticeAccepts
    rw [from_bytes_encode fs wf, from_bytes_encode fs' wf',
      noticeFinish_accepts, noticeFinish_accepts, collectParts_perm hperm nd]

/-- Witness for `notice_presence_order`: the fields `C"4" M"x"` (no `S`,
no position field) panic; the fields `P"z" C"4" M"x"` return
`Err(ParseInt)`; the fields `S"E" C"4" M"x"` give the acceptance formula;
and a concrete permutation of three distinct-tag fields preserves
acceptance. -/
theorem notice_presence_order_witness :
    NoticeBody.from_bytes
      (encodeNoticeFields [(67, [52]), (77, [120])] ++ [0]) = none ∧
    NoticeBody.from_bytes
      (encodeNoticeFields [(80, [122]), (67, [52]), (77, [120])] ++ [0]) =
      some (.error .ParseInt) ∧
    noticeAccepts (encodeNoticeFields [(83, [69]), (67, [52]), (77, [120])] ++ [0]) =
      (!noticePosParseErr
          (collectParts [(83, [69]), (67, [52]), (77, [120])] (fun _ => none)) &&
       (collectParts [(83, [69]), (67, [52]), (77, [120])] (fun _ => none) 83).isSome &&
       (collectParts [(83, [69]), (67, [52]), (77, [120])] (fun _ => none) 67).isSome &&
       (collectParts [(83, [69]), (67, [52]), (77, [120])] (fun _ => none) 77).isSome) ∧
    noticeAccepts (encodeNoticeFields [(83, [69]), (67, [52]), (77, [120])] ++ [0]) =
      noticeAccepts (encodeNoticeFields [(67, [52]), (83, [69]), (77, [120])] ++ [0]) :=
  ⟨(notice_presence_order.1 [(67, [52]), (77, [120])] (by decide)).1
      (by decide) (by decide),
   (notice_presence_order.1 [(80, [122]), (67, [52]), (77, [120])] (by decide)).2.1
      (by decide),
   (notice_presence_order.1 [(83, [69]), (67, [52]), (77, [120])] (by decide)).2.2,
   notice_presence_order.2 _ _ (by decide) (by decide) (by decide)⟩

end Gres
